import Mathlib

/-!
Verification of the levp/ast expression compiler: a shallow embedding of the
tokenizer (`Tokenizer.tokenize`), the operator registry (`Operator`), the
shunting-yard tree builder (`AST.create`) and the evaluator
(`ExprNode.evaluate`), translated from the TypeScript sources, together with
theorems settling the specification claims.

Modelling conventions:
* JavaScript strings are modelled as `List Char` (the inputs in question are
  ASCII, where UTF-16 code units and code points agree); `charCodeAt`
  comparisons become `Char` comparisons, and an out-of-range `charCodeAt`
  (which yields `NaN`, making every comparison false) is modelled by
  `List.get?` returning `none` with all guards answering `false`.
* JavaScript numbers are modelled as `Rat`.  Every numeric value exercised by
  the claims (small integers and one-digit decimal fractions combined with
  `+ - * ** floor`) is computed exactly by IEEE doubles, so the rational
  model agrees with the source on those values.
* A JavaScript `TypeError` caused by reading a property of `undefined`
  (e.g. `peek(stack).type` on an empty stack, or `children.map` when
  `children` was never supplied) is modelled by an explicit error value.
* Loops over string indices are modelled with an explicit fuel parameter so
  that every definition is structurally recursive and kernel-reducible; the
  fuel chosen always exceeds the iteration count (for the main scanner loop
  this is proved: see the claim about termination).
-/

deriving instance DecidableEq for Except

namespace Ast

/-- Token kinds, from `TokenType.ts` (`src/unnamed/part_004`). -/
inductive TokenType where
  | Number
  | Operator
  | LeftParenthesis
  | RightParenthesis
  | Function
  | ArgumentSeparator
deriving DecidableEq, Repr

/-- An operator, from `Operator.ts`.  The source field `length` (the arity,
derived from `func.length`) is named `arity` here; the semantic function
`func` is carried separately by `Operator.apply`, dispatched on the unique
`symbol`. -/
structure Operator where
  precedence : Nat
  symbol : List Char
  isLeftAssociative : Bool
  arity : Nat
deriving DecidableEq, Repr

/-- The built-in function registry names, from `FunctionMap.ts`
(`src/unnamed/part_003`). -/
inductive FuncName where
  | fmax
  | fmin
  | frand
  | ffloor
  | fceil
  | fround
deriving DecidableEq, Repr

/-- Arity of a registered function: the parameter count (`func.length`) of the
corresponding entry of `FunctionMap`. -/
def FuncName.arity : FuncName → Nat
  | .fmax => 2
  | .fmin => 2
  | .frand => 0
  | .ffloor => 1
  | .fceil => 1
  | .fround => 1

/-- A lexical token, from `Token.ts` (`src/unnamed/part_001`).  The source
class stores a raw `value` whose kind is resolved by `Token.resolveType`; the
embedding is the resulting tagged union, one constructor per `TokenType`. -/
inductive Token where
  | number (value : Rat)
  | operator (op : Operator)
  | leftParen
  | rightParen
  | argumentSeparator
  | function (f : FuncName)
deriving DecidableEq, Repr

/-- `Token.type`, as resolved by `Token.resolveType`. -/
def Token.type : Token → TokenType
  | .number _ => .Number
  | .operator _ => .Operator
  | .leftParen => .LeftParenthesis
  | .rightParen => .RightParenthesis
  | .argumentSeparator => .ArgumentSeparator
  | .function _ => .Function

/-- `token.value.length` as read by `AST.popOperator` — the arity of the
operator or function carried by the token (only read on Operator/Function
tokens). -/
def Token.arity : Token → Nat
  | .operator op => op.arity
  | .function f => f.arity
  | _ => 0

/-- `(<Operator> token.value).precedence`, only read on Operator tokens. -/
def Token.opPrecedence : Token → Nat
  | .operator op => op.precedence
  | _ => 0

/-- Convenience: the character list underlying a string literal. -/
def str (s : String) : List Char := s.data

/-!
Rational arithmetic.  The `Rat` operations of the `+ - * /` instances are
marked irreducible upstream, which blocks kernel evaluation; the embedding
therefore spells out the field operations through the reducible primitives
`Rat.divInt`, `mkRat`, `Rat.neg`, `Rat.floor`, `Rat.ceil` and `Rat.blt`,
producing the same (normalised) values.
-/

def ratAdd (a b : Rat) : Rat := Rat.divInt (a.num * b.den + b.num * a.den) (a.den * b.den)

def ratSub (a b : Rat) : Rat := Rat.divInt (a.num * b.den - b.num * a.den) (a.den * b.den)

def ratMul (a b : Rat) : Rat := Rat.divInt (a.num * b.num) (a.den * b.den)

def ratDiv (a b : Rat) : Rat := Rat.divInt (a.num * b.den) (a.den * b.num)

def ratPowNat (a : Rat) : Nat → Rat
  | 0 => 1
  | n + 1 => ratMul (ratPowNat a n) a

def ratInv (a : Rat) : Rat := Rat.divInt a.den a.num

/-- Truncation toward zero, used to model the JavaScript `%` remainder. -/
def ratTrunc (q : Rat) : Int :=
  if q.blt 0 then -((Rat.neg q).floor) else q.floor

/-- `Math.pow` on the rational model.  Exact for integer exponents (the only
exponents the specification exercises); non-integer exponents, whose value is
irrational or NaN in general, are mapped to `0`. -/
def jsPow (a b : Rat) : Rat :=
  if b.den = 1 then
    if 0 ≤ b.num then ratPowNat a b.num.toNat else ratInv (ratPowNat a (-b.num).toNat)
  else 0

/-- The semantic functions of the seven registered operators (the `func`
field of each `new Operator(...)` call at the bottom of `Operator.ts`),
dispatched on the unique symbol.  A missing operand is `undefined` in the
source, giving NaN results; those unexercised cases are mapped to `0`.
Surplus arguments are ignored, as `Function.prototype.apply` does.  Division
by zero (`Infinity` in the source) is likewise outside the rational model
and yields `Rat.divInt _ 0 = 0`; no claim exercises it. -/
def Operator.apply (op : Operator) (args : List Rat) : Rat :=
  match op.symbol, args with
  | ['+'], a :: b :: _ => ratAdd a b
  | ['-'], a :: b :: _ => ratSub a b
  | ['*'], a :: b :: _ => ratMul a b
  | ['/'], a :: b :: _ => ratDiv a b
  | ['%'], a :: b :: _ => ratSub a (ratMul b (Rat.ofInt (ratTrunc (ratDiv a b))))
  | ['*', '*'], a :: b :: _ => jsPow a b
  | ['~'], a :: _ => Rat.neg a
  | _, _ => 0

/-- The semantic functions of `FunctionMap`.  `rand` calls `Math.random()` in
the source; the model fixes it to `0` (no claim depends on its value). -/
def FuncName.apply : FuncName → List Rat → Rat
  | .fmax, a :: b :: _ => if b.blt a then a else b
  | .fmin, a :: b :: _ => if a.blt b then a else b
  | .frand, _ => 0
  | .ffloor, a :: _ => Rat.ofInt a.floor
  | .fceil, a :: _ => Rat.ofInt a.ceil
  | .fround, a :: _ => Rat.ofInt (ratAdd a (mkRat 1 2)).floor
  | _, _ => 0

/-- The seven built-in operators, in their registration order (the
`new Operator(...)` calls at the bottom of `Operator.ts`). -/
def opAdd : Operator := ⟨0, ['+'], true, 2⟩

def opSub : Operator := ⟨0, ['-'], true, 2⟩

def opMul : Operator := ⟨1, ['*'], true, 2⟩

def opDiv : Operator := ⟨1, ['/'], true, 2⟩

def opMod : Operator := ⟨1, ['%'], true, 2⟩

def opPow : Operator := ⟨2, ['*', '*'], false, 2⟩

def opNeg : Operator := ⟨3, ['~'], false, 1⟩

def Operator.operators : List Operator :=
  [opAdd, opSub, opMul, opDiv, opMod, opPow, opNeg]

/-- One entry of `Operator.dictionary`: all operators sharing one symbol
length.  The source `opMap` object is modelled as an association list in
insertion order. -/
structure DicEntry where
  symbolLength : Nat
  opMap : List (List Char × Operator)
deriving DecidableEq, Repr

/-- `map.hasOwnProperty(testedString)` followed by `map[testedString]`. -/
def lookupMap (s : List Char) : List (List Char × Operator) → Option Operator
  | [] => none
  | (sym, op) :: rest => if s = sym then some op else lookupMap s rest

/-- Descending insertion used to model
`dic.sort((a, b) => b.symbolLength - a.symbolLength)`.  The entries have
pairwise distinct lengths, so any descending sort produces the same list. -/
def insertDesc (e : DicEntry) : List DicEntry → List DicEntry
  | [] => [e]
  | x :: xs => if x.symbolLength ≤ e.symbolLength then e :: x :: xs else x :: insertDesc e xs

def sortDesc (l : List DicEntry) : List DicEntry := l.foldr insertDesc []

/-- `Operator.register`.  The source scans for an existing entry of the same
symbol length (keeping the last hit; entries have unique lengths, so first and
last agree), appends the operator to that entry or pushes a fresh sorted
entry, and throws on a duplicate symbol. -/
def Operator.register (dic : List DicEntry) (op : Operator) :
    Except String (List DicEntry) :=
  match dic.find? (fun e => e.symbolLength = op.symbol.length) with
  | some e =>
    if (lookupMap op.symbol e.opMap).isSome then
      .error "Operator symbols must be unique."
    else
      .ok (dic.map (fun x =>
        if x.symbolLength = op.symbol.length then
          ⟨x.symbolLength, x.opMap ++ [(op.symbol, op)]⟩
        else x))
  | none => .ok (sortDesc (dic ++ [⟨op.symbol.length, [(op.symbol, op)]⟩]))

/-- The registry built by the seven top-level `new Operator(...)` calls. -/
def registerAll : Except String (List DicEntry) :=
  Operator.operators.foldlM Operator.register []

/-- `Operator.dictionary` after startup registration. -/
def Operator.dictionary : List DicEntry := registerAll.toOption.getD []

/-- Sanity: no registration throws, and the dictionary holds the length-2
entry before the length-1 entry. -/
theorem registerAll_ok : registerAll = .ok Operator.dictionary := rfl

/-- JavaScript `expr.substring(start, end)` (clamped slice by end index). -/
def jsSubstring (l : List Char) (a b : Nat) : List Char := (l.take b).drop a

/-- JavaScript `expr.substr(start, len)` (slice by length). -/
def jsSubstr (l : List Char) (start len : Nat) : List Char := (l.drop start).take len

/-- The loop body of `Operator.parse`: walk the dictionary entries (longest
symbol length first), skipping entries whose symbols would overrun the input,
and return the first map hit on the tested substring. -/
def parseAux (expr : List Char) (startIndex : Nat) : List DicEntry → Option Operator
  | [] => none
  | e :: rest =>
    let endIndex := startIndex + e.symbolLength
    if expr.length < endIndex then parseAux expr startIndex rest
    else
      match lookupMap (jsSubstring expr startIndex endIndex) e.opMap with
      | some op => some op
      | none => parseAux expr startIndex rest

/-- `Operator.parse(expr, startIndex)`. -/
def Operator.parse (expr : List Char) (startIndex : Nat) : Option Operator :=
  parseAux expr startIndex Operator.dictionary

/-- `Tokenizer.ParseInfo`. -/
structure ParseInfo where
  token : Token
  charsRead : Nat
deriving DecidableEq, Repr

/-- `Tokenizer.isAlphabetic`: the `charCodeAt` range checks; out of range the
code is NaN and every comparison is false. -/
def isAlphabetic (s : List Char) (index : Nat) : Bool :=
  match s.get? index with
  | none => false
  | some c =>
    ('a'.toNat ≤ c.toNat && c.toNat ≤ 'z'.toNat)
      || ('A'.toNat ≤ c.toNat && c.toNat ≤ 'Z'.toNat)

/-- `Tokenizer.isAlphaNumeric`. -/
def isAlphaNumeric (s : List Char) (index : Nat) : Bool :=
  match s.get? index with
  | none => false
  | some c =>
    ('0'.toNat ≤ c.toNat && c.toNat ≤ '9'.toNat)
      || ('a'.toNat ≤ c.toNat && c.toNat ≤ 'z'.toNat)
      || ('A'.toNat ≤ c.toNat && c.toNat ≤ 'Z'.toNat)

/-- The scanning loop of `readNumber`: starting at `i`, consume digits and at
most one decimal mark, returning the final index and the mark flag.  Fuel
makes the recursion structural; each call site passes fuel exceeding the
remaining string length, which bounds the iteration count. -/
def numberScanF : Nat → List Char → Nat → Nat → Nat × Nat
  | 0, _, i, decimalMark => (i, decimalMark)
  | fuel + 1, expr, i, decimalMark =>
    match expr.get? i with
    | none => (i, decimalMark)
    | some c =>
      if c.toNat = '.'.toNat then
        if decimalMark = 1 then (i, decimalMark)
        else numberScanF fuel expr (i + 1) 1
      else if c.toNat < '0'.toNat || '9'.toNat < c.toNat then (i, decimalMark)
      else numberScanF fuel expr (i + 1) decimalMark

def numberScan (expr : List Char) (index : Nat) : Nat × Nat :=
  numberScanF (expr.length + 1) expr index 0

/-- Value of a digit run. -/
def digitsToNat (l : List Char) : Nat :=
  l.foldl (fun acc c => acc * 10 + (c.toNat - '0'.toNat)) 0

/-- `Number(...)` applied to the scanned substring — a run of digits holding
at most one dot.  The rational value is exact; the double produced by the
source rounds it to 53 bits, which agrees on every value the claims use. -/
def parseDecimal (s : List Char) : Rat :=
  let intPart := s.takeWhile (fun c => c != '.')
  let fracPart := (s.dropWhile (fun c => c != '.')).drop 1
  mkRat (digitsToNat intPart * 10 ^ fracPart.length + digitsToNat fracPart)
    (10 ^ fracPart.length)

/-- `Tokenizer.readNumber`. -/
def readNumber (expr : List Char) (index : Nat) : Option ParseInfo :=
  let scanned := numberScan expr index
  let charsRead := scanned.1 - index
  if charsRead - scanned.2 = 0 then none
  else some ⟨Token.number (parseDecimal (jsSubstr expr index charsRead)), charsRead⟩

/-- The identifier-consuming loop of `readFunction`:
`for (i = index + 1; i < expr.length; i++) if (!isAlphaNumeric(expr, i)) break`. -/
def funScanF : Nat → List Char → Nat → Nat
  | 0, _, i => i
  | fuel + 1, expr, i =>
    if i < expr.length then
      if isAlphaNumeric expr i then funScanF fuel expr (i + 1) else i
    else i

def funScan (expr : List Char) (i : Nat) : Nat :=
  funScanF (expr.length + 1) expr i

/-- `FunctionMap.hasOwnProperty(name)` combined with `FunctionMap[name]`. -/
def lookupFunction (name : List Char) : Option FuncName :=
  if name = str "max" then some .fmax
  else if name = str "min" then some .fmin
  else if name = str "rand" then some .frand
  else if name = str "floor" then some .ffloor
  else if name = str "ceil" then some .fceil
  else if name = str "round" then some .fround
  else none

/-- `Tokenizer.readFunction` as written in the TypeScript source
(`src/src/Tokenizer.ts`): the tested name is `expr.substr(index, i)` — the
`i` characters starting at `index` — although `charsRead` is `i - index`. -/
def readFunction (expr : List Char) (index : Nat) : Option ParseInfo :=
  if !isAlphabetic expr index then none
  else
    match lookupFunction (jsSubstr expr index (funScan expr (index + 1))) with
    | none => none
    | some f => some ⟨Token.function f, funScan expr (index + 1) - index⟩

/-- `readFunction` as it appears in the compiled artifact
(`src/unnamed/part_002`): the tested name is `expr.substring(index, i)` —
the characters from `index` up to `i`.  (The artifact additionally logs the
name on the failure path; `console.log` has no effect on the value.) -/
def readFunctionJs (expr : List Char) (index : Nat) : Option ParseInfo :=
  if !isAlphabetic expr index then none
  else
    match lookupFunction (jsSubstring expr index (funScan expr (index + 1))) with
    | none => none
    | some f => some ⟨Token.function f, funScan expr (index + 1) - index⟩

/-- `Tokenizer.readToken` (TypeScript source): number, then operator, then
single-character punctuation, then function name.  `expr.charAt(index)` out
of range is the empty string, matching none of the punctuation characters. -/
def readToken (expr : List Char) (index : Nat) : Option ParseInfo :=
  match readNumber expr index with
  | some info => some info
  | none =>
    match Operator.parse expr index with
    | some op => some ⟨Token.operator op, op.symbol.length⟩
    | none =>
      match expr.get? index with
      | some '(' => some ⟨Token.leftParen, 1⟩
      | some ')' => some ⟨Token.rightParen, 1⟩
      | some ',' => some ⟨Token.argumentSeparator, 1⟩
      | _ =>
        match readFunction expr index with
        | some info => some info
        | none => none

/-- `readToken` of the compiled artifact; identical except that it calls the
artifact's `readFunction`. -/
def readTokenJs (expr : List Char) (index : Nat) : Option ParseInfo :=
  match readNumber expr index with
  | some info => some info
  | none =>
    match Operator.parse expr index with
    | some op => some ⟨Token.operator op, op.symbol.length⟩
    | none =>
      match expr.get? index with
      | some '(' => some ⟨Token.leftParen, 1⟩
      | some ')' => some ⟨Token.rightParen, 1⟩
      | some ',' => some ⟨Token.argumentSeparator, 1⟩
      | _ =>
        match readFunctionJs expr index with
        | some info => some info
        | none => none

/-- Scanner failure: the top-level `throw` of `tokenize` recording the
offending character, plus the fuel sentinel of the loop model (proved
unreachable below). -/
inductive LexErr where
  | unexpectedToken (c : Char)
  | outOfFuel
deriving DecidableEq, Repr

/-- The `while (i < expr.length)` loop of `Tokenizer.tokenize`: skip
whitespace, read one token, advance by `charsRead`. -/
def tokenizeFuel : Nat → List Char → Nat → Except LexErr (List Token)
  | 0, _, _ => .error .outOfFuel
  | fuel + 1, expr, i =>
    if h : i < expr.length then
      if expr.get ⟨i, h⟩ = ' ' || expr.get ⟨i, h⟩ = '\n'
          || expr.get ⟨i, h⟩ = '\r' || expr.get ⟨i, h⟩ = '\t' then
        tokenizeFuel fuel expr (i + 1)
      else
        match readToken expr i with
        | none => .error (.unexpectedToken (expr.get ⟨i, h⟩))
        | some info =>
          match tokenizeFuel fuel expr (i + info.charsRead) with
          | .error e => .error e
          | .ok rest => .ok (info.token :: rest)
    else .ok []

/-- `Tokenizer.tokenize` (TypeScript source).  Each loop iteration advances
the index by at least one, so `expr.length + 1` fuel always suffices. -/
def Tokenizer.tokenize (expr : List Char) : Except LexErr (List Token) :=
  tokenizeFuel (expr.length + 1) expr 0

/-- The compiled artifact's `tokenize` loop. -/
def tokenizeFuelJs : Nat → List Char → Nat → Except LexErr (List Token)
  | 0, _, _ => .error .outOfFuel
  | fuel + 1, expr, i =>
    if h : i < expr.length then
      if expr.get ⟨i, h⟩ = ' ' || expr.get ⟨i, h⟩ = '\n'
          || expr.get ⟨i, h⟩ = '\r' || expr.get ⟨i, h⟩ = '\t' then
        tokenizeFuelJs fuel expr (i + 1)
      else
        match readTokenJs expr i with
        | none => .error (.unexpectedToken (expr.get ⟨i, h⟩))
        | some info =>
          match tokenizeFuelJs fuel expr (i + info.charsRead) with
          | .error e => .error e
          | .ok rest => .ok (info.token :: rest)
    else .ok []

/-- The compiled artifact's `Tokenizer.tokenize`. -/
def tokenizeJs (expr : List Char) : Except LexErr (List Token) :=
  tokenizeFuelJs (expr.length + 1) expr 0

/-- `ExprNode` (`src/src/ExprNode.ts`): a token plus an optional child list.
`new ExprNode(token)` omits the second constructor argument, leaving
`children` equal to `undefined`; this is modelled by `none`. -/
inductive ExprNode where
  | mk (token : Token) (children : Option (List ExprNode))

def ExprNode.token : ExprNode → Token
  | .mk t _ => t

def ExprNode.children : ExprNode → Option (List ExprNode)
  | .mk _ c => c

/-- Failures of `AST.create`.  The first four model the `throw new Error`
statements of `AST.ts`; `typeErrorUndefined` models the JavaScript
`TypeError` raised by reading `.type` of `undefined` when `peek` or `pop`
is applied to an empty stack. -/
inductive ParseErr where
  | mismatchedRightParen
  | mismatchedLeftParen
  | invalidOperatorToken
  | notEnoughExpressions
  | typeErrorUndefined
deriving DecidableEq, Repr

/-- `AST.popOperator`: pop the top pending token (reading `.type` of
`undefined` if the stack is empty), require it to be a Function or Operator,
pop `token.value.length` operands off the output stack — the last pop
becoming the first operand — and push the reduced node. -/
def popOperator (opStack : List Token) (exprStack : List ExprNode) :
    Except ParseErr (List Token × List ExprNode) :=
  match opStack with
  | [] => .error .typeErrorUndefined
  | token :: rest =>
    if token.type ≠ TokenType.Function ∧ token.type ≠ TokenType.Operator then
      .error .invalidOperatorToken
    else
      let argCount := token.arity
      if exprStack.length < argCount then .error .notEnoughExpressions
      else
        .ok (rest, ExprNode.mk token (some ((exprStack.take argCount).reverse))
              :: exprStack.drop argCount)

/-- The `while (true)` loop of Case 3 (RightParenthesis) of `AST.create`.
On an empty stack it throws `mismatchedRightParen`; on finding the matching
LeftParen it discards it and then evaluates `peek(opStack).type` — a
`TypeError` when the stack is now empty — reducing a Function top if present;
otherwise it reduces the top via `popOperator` and continues.  (A successful
`popOperator` on `top :: rest` always returns `rest` as the new pending
stack, so the recursion continues on `rest`.) -/
def processRightParen : List Token → List ExprNode →
    Except ParseErr (List Token × List ExprNode)
  | [], _ => .error .mismatchedRightParen
  | top :: rest, exprStack =>
    if top.type = TokenType.LeftParenthesis then
      match rest with
      | [] => .error .typeErrorUndefined
      | next :: _ =>
        if next.type = TokenType.Function then popOperator rest exprStack
        else .ok (rest, exprStack)
    else
      match popOperator (top :: rest) exprStack with
      | .error e => .error e
      | .ok (_, exprStack2) => processRightParen rest exprStack2

/-- The `while (opStack.length > 0)` loop of Case 4 (Operator) of
`AST.create`: pop and reduce while the top is an Operator token whose
precedence defeats `op` under `op`'s associativity. -/
def popWhileHigherPrec (op : Operator) : List Token → List ExprNode →
    Except ParseErr (List Token × List ExprNode)
  | [], exprStack => .ok ([], exprStack)
  | nextOp :: rest, exprStack =>
    if nextOp.type ≠ TokenType.Operator then .ok (nextOp :: rest, exprStack)
    else if op.isLeftAssociative ∧ nextOp.opPrecedence < op.precedence then
      .ok (nextOp :: rest, exprStack)
    else if ¬op.isLeftAssociative ∧ nextOp.opPrecedence ≤ op.precedence then
      .ok (nextOp :: rest, exprStack)
    else
      match popOperator (nextOp :: rest) exprStack with
      | .error e => .error e
      | .ok (_, exprStack2) => popWhileHigherPrec op rest exprStack2

/-- The `while (true)` loop of Case 5 (ArgumentSeparator) of `AST.create`:
`peek` the pending stack (a `TypeError` when it is empty), stop at a
LeftParen, and otherwise push `new ExprNode(opStack.pop())` — a node with
`undefined` children, NOT a reduction — onto the output stack. -/
def processSeparator : List Token → List ExprNode →
    Except ParseErr (List Token × List ExprNode)
  | [], _ => .error .typeErrorUndefined
  | nextOp :: rest, exprStack =>
    if nextOp.type = TokenType.LeftParenthesis then .ok (nextOp :: rest, exprStack)
    else processSeparator rest (ExprNode.mk nextOp none :: exprStack)

/-- The per-token `switch` of `AST.create`.  The state is the pair
(pending-symbol stack, output stack), both with the top at the head.  The
`default: throw` branch of the switch is unreachable: every constructor of
`Token` resolves to one of the six handled `TokenType`s. -/
def processToken (state : List Token × List ExprNode) (token : Token) :
    Except ParseErr (List Token × List ExprNode) :=
  match token with
  | .number v => .ok (state.1, ExprNode.mk (Token.number v) none :: state.2)
  | .leftParen => .ok (Token.leftParen :: state.1, state.2)
  | .rightParen => processRightParen state.1 state.2
  | .operator op =>
    match popWhileHigherPrec op state.1 state.2 with
    | .error e => .error e
    | .ok (opStack2, exprStack2) => .ok (Token.operator op :: opStack2, exprStack2)
  | .argumentSeparator => processSeparator state.1 state.2
  | .function f => .ok (Token.function f :: state.1, state.2)

/-- The final `while (opStack.length > 0)` loop of `AST.create`: pop and
reduce the remaining pending symbols, throwing on a LeftParen. -/
def drainOpStack : List Token → List ExprNode → Except ParseErr (List ExprNode)
  | [], exprStack => .ok exprStack
  | next :: rest, exprStack =>
    if next.type = TokenType.LeftParenthesis then .error .mismatchedLeftParen
    else
      match popOperator (next :: rest) exprStack with
      | .error e => .error e
      | .ok (_, exprStack2) => drainOpStack rest exprStack2

/-- `AST.create`.  The function ends with `return exprStack.pop()`, which is
the most recently pushed node, or `undefined` (modelled `none`) when the
output stack is empty — there is no check that exactly one node remains. -/
def AST.create (tokens : List Token) : Except ParseErr (Option ExprNode) :=
  match tokens.foldlM processToken (([] : List Token), ([] : List ExprNode)) with
  | .error e => .error e
  | .ok (opStack, exprStack) =>
    match drainOpStack opStack exprStack with
    | .error e => .error e
    | .ok exprStack2 => .ok exprStack2.head?

/-- Failures of `ExprNode.evaluate`: the `throw` for a non-value token, and
the `TypeError` raised by `this.children.map` when `children` is
`undefined`. -/
inductive EvalErr where
  | unexpectedTokenType
  | typeErrorUndefined
deriving DecidableEq, Repr

mutual

/-- `ExprNode.evaluate`: a Number token returns its value; an Operator or
Function token maps `evaluate` over the children (left to right, `TypeError`
if `children` is `undefined`) and applies the semantic function; any other
token type throws. -/
def ExprNode.evaluate : ExprNode → Except EvalErr Rat
  | .mk (Token.number v) _ => .ok v
  | .mk (Token.operator op) children =>
    match children with
    | none => .error .typeErrorUndefined
    | some cs =>
      match evalChildren cs with
      | .error e => .error e
      | .ok args => .ok (op.apply args)
  | .mk (Token.function f) children =>
    match children with
    | none => .error .typeErrorUndefined
    | some cs =>
      match evalChildren cs with
      | .error e => .error e
      | .ok args => .ok (f.apply args)
  | .mk _ _ => .error .unexpectedTokenType

/-- `children.map(child => child.evaluate())`, left to right, propagating the
first failure. -/
def evalChildren : List ExprNode → Except EvalErr (List Rat)
  | [] => .ok []
  | n :: ns =>
    match n.evaluate with
    | .error e => .error e
    | .ok v =>
      match evalChildren ns with
      | .error e => .error e
      | .ok vs => .ok (v :: vs)

end

/-- Any failure of the composed pipeline
`evaluate(parse(tokenize(source)))`.  `undefinedAst` stands for the
`TypeError` a host would hit by calling `.evaluate()` on the `undefined`
returned by `AST.create` for an empty expression. -/
inductive Failure where
  | lex (e : LexErr)
  | parse (e : ParseErr)
  | eval (e : EvalErr)
  | undefinedAst
deriving DecidableEq, Repr

/-- `tokenize` then `AST.create` on a source string. -/
def parseString (s : String) : Except Failure (Option ExprNode) :=
  match Tokenizer.tokenize (str s) with
  | .error e => .error (.lex e)
  | .ok toks =>
    match AST.create toks with
    | .error e => .error (.parse e)
    | .ok r => .ok r

/-- The full pipeline `evaluate(parse(tokenize(source)))`. -/
def evaluateString (s : String) : Except Failure Rat :=
  match parseString s with
  | .error e => .error e
  | .ok none => .error .undefinedAst
  | .ok (some node) =>
    match node.evaluate with
    | .error e => .error (.eval e)
    | .ok v => .ok v

/-!
The child-count-equals-arity invariant claimed for AST nodes: a Number
leaf carries no child list; an Operator/Function node carries exactly its
arity's worth of recursively well-formed children; no other token appears.
-/

mutual

def arityOk : ExprNode → Bool
  | .mk (Token.number _) children => children.isNone
  | .mk (Token.operator op) children =>
    match children with
    | none => false
    | some cs => cs.length == op.arity && arityOkList cs
  | .mk (Token.function f) children =>
    match children with
    | none => false
    | some cs => cs.length == f.arity && arityOkList cs
  | .mk _ _ => false

def arityOkList : List ExprNode → Bool
  | [] => true
  | n :: ns => arityOk n && arityOkList ns

end

/-- Sum of the arities of a stack of pending tokens; when the output stack
holds at least this many nodes, every reduction of the pending stack finds
enough operands. -/
def aritySum : List Token → Nat
  | [] => 0
  | t :: rest => t.arity + aritySum rest

/-- Where the symbol occurs: `sym` matches `expr` at position `i`. -/
def matchesAt (expr : List Char) (i : Nat) (sym : List Char) : Prop :=
  i + sym.length ≤ expr.length ∧ jsSubstring expr i (i + sym.length) = sym

/-! Helper lemmas. -/

theorem lookupMap_cases :
    ∀ (m : List (List Char × Operator)) (s : List Char) (op : Operator),
      lookupMap s m = some op → ∃ pr ∈ m, pr.1 = s ∧ pr.2 = op := by
  intro m
  induction m with
  | nil => intro s op h; simp [lookupMap] at h
  | cons pr rest ih =>
    intro s op h
    obtain ⟨sym, o⟩ := pr
    rw [lookupMap] at h
    by_cases hs : s = sym
    · rw [if_pos hs] at h
      injection h with h2
      exact ⟨(sym, o), List.mem_cons_self _ _, hs.symm, h2⟩
    · rw [if_neg hs] at h
      obtain ⟨q, hq, h1, h2⟩ := ih s op h
      exact ⟨q, List.mem_cons_of_mem _ hq, h1, h2⟩

theorem lookupMap_none :
    ∀ (m : List (List Char × Operator)) (s : List Char),
      lookupMap s m = none → ∀ pr ∈ m, pr.1 ≠ s := by
  intro m
  induction m with
  | nil => intro s _ pr hpr; simp at hpr
  | cons hd rest ih =>
    intro s h pr hpr
    obtain ⟨sym, o⟩ := hd
    rw [lookupMap] at h
    by_cases hs : s = sym
    · rw [if_pos hs] at h; cases h
    · rw [if_neg hs] at h
      rcases List.mem_cons.mp hpr with heq | hmem
      · cases heq; simpa using fun a => hs a.symm
      · exact ih s h pr hmem

theorem funScanF_le : ∀ (fuel : Nat) (expr : List Char) (i : Nat), i ≤ funScanF fuel expr i := by
  intro fuel
  induction fuel with
  | zero => intro expr i; simp [funScanF]
  | succ fuel ih =>
    intro expr i
    rw [funScanF]
    split
    · split
      · exact Nat.le_trans (Nat.le_succ i) (ih expr (i + 1))
      · exact Nat.le_refl i
    · exact Nat.le_refl i

theorem readNumber_charsRead :
    ∀ (expr : List Char) (i : Nat) (info : ParseInfo),
      readNumber expr i = some info → 1 ≤ info.charsRead := by
  intro expr i info h
  rw [readNumber] at h
  split at h
  · cases h
  · rename_i hne
    cases h
    simp only
    omega

theorem parseAux_mem :
    ∀ (dic : List DicEntry) (expr : List Char) (i : Nat) (op : Operator),
      parseAux expr i dic = some op → ∃ e ∈ dic, ∃ s, (s, op) ∈ e.opMap := by
  intro dic
  induction dic with
  | nil => intro expr i op h; simp [parseAux] at h
  | cons e rest ih =>
    intro expr i op h
    rw [parseAux] at h
    split at h
    · obtain ⟨e2, he2, s, hs⟩ := ih expr i op h
      exact ⟨e2, by simp [he2], s, hs⟩
    · split at h
      · rename_i o heq
        cases h
        obtain ⟨pr, hpr, h1, h2⟩ := lookupMap_cases _ _ _ heq
        exact ⟨e, by simp, pr.1, by rw [← h2]; simpa using hpr⟩
      · obtain ⟨e2, he2, s, hs⟩ := ih expr i op h
        exact ⟨e2, by simp [he2], s, hs⟩

theorem parse_symbol_pos :
    ∀ (expr : List Char) (i : Nat) (op : Operator),
      Operator.parse expr i = some op → 1 ≤ op.symbol.length := by
  intro expr i op h
  obtain ⟨e, he, s, hs⟩ := parseAux_mem _ _ _ _ h
  have hall : ∀ e2 ∈ Operator.dictionary, ∀ pr ∈ e2.opMap, 1 ≤ pr.2.symbol.length := by decide
  exact hall e he (s, op) hs

theorem readFunction_charsRead :
    ∀ (expr : List Char) (i : Nat) (info : ParseInfo),
      readFunction expr i = some info → 1 ≤ info.charsRead := by
  intro expr i info h
  rw [readFunction] at h
  split at h
  · cases h
  · split at h
    · cases h
    · cases h
      simp only
      have := funScanF_le (expr.length + 1) expr (i + 1)
      rw [funScan]
      omega

theorem readToken_charsRead :
    ∀ (expr : List Char) (i : Nat) (info : ParseInfo),
      readToken expr i = some info → 1 ≤ info.charsRead := by
  intro expr i info h
  rw [readToken] at h
  split at h
  · rename_i heq
    cases h
    exact readNumber_charsRead _ _ _ heq
  · split at h
    · rename_i op heq
      cases h
      exact parse_symbol_pos _ _ _ heq
    · split at h
      · cases h; exact Nat.le_refl 1
      · cases h; exact Nat.le_refl 1
      · cases h; exact Nat.le_refl 1
      · split at h
        · rename_i heq
          cases h
          exact readFunction_charsRead _ _ _ heq
        · cases h

theorem tokenizeFuel_ne_outOfFuel :
    ∀ (fuel : Nat) (expr : List Char) (i : Nat),
      expr.length - i < fuel → tokenizeFuel fuel expr i ≠ .error .outOfFuel := by
  intro fuel
  induction fuel with
  | zero => intro expr i h; exact absurd h (Nat.not_lt_zero _)
  | succ fuel ih =>
    intro expr i h
    rw [tokenizeFuel]
    split
    · rename_i hlt
      split
      · exact ih expr (i + 1) (by omega)
      · split
        · simp
        · rename_i info heq
          have h1 := readToken_charsRead expr i info heq
          have h2 := ih expr (i + info.charsRead) (by omega)
          split
          · rename_i e heq2
            intro hc
            cases hc
            exact h2 heq2
          · simp
    · simp

theorem popOperator_ok (t : Token) (rest : List Token) (ex : List ExprNode)
    (ht : t.type = TokenType.Operator ∨ t.type = TokenType.Function)
    (hlen : t.arity ≤ ex.length) :
    popOperator (t :: rest) ex =
      .ok (rest, ExprNode.mk t (some ((ex.take t.arity).reverse)) :: ex.drop t.arity) := by
  rw [popOperator]
  rw [if_neg (by rcases ht with h | h <;> simp [h])]
  rw [if_neg (by omega)]

theorem processRightParen_no_lparen :
    ∀ (opStack : List Token) (exprStack : List ExprNode),
      (∀ t ∈ opStack, t.type = TokenType.Operator ∨ t.type = TokenType.Function) →
      aritySum opStack ≤ exprStack.length →
      processRightParen opStack exprStack = .error .mismatchedRightParen := by
  intro opStack
  induction opStack with
  | nil => intro ex _ _; rfl
  | cons t rest ih =>
    intro ex hall hsum
    have ht := hall t (List.mem_cons_self _ _)
    have harity : t.arity + aritySum rest ≤ ex.length := by
      rw [aritySum] at hsum; omega
    show (if t.type = TokenType.LeftParenthesis then _ else _) = _
    rw [if_neg (by rcases ht with h | h <;> simp [h])]
    rw [popOperator_ok t rest ex ht (by omega)]
    exact ih _ (fun u hu => hall u (List.mem_cons_of_mem _ hu))
      (by simp [List.length_drop]; omega)

theorem drainOpStack_lparen :
    ∀ (ops : List Token) (lp : Token) (rest : List Token) (exprStack : List ExprNode),
      (∀ t ∈ ops, t.type = TokenType.Operator ∨ t.type = TokenType.Function) →
      lp.type = TokenType.LeftParenthesis →
      aritySum ops ≤ exprStack.length →
      drainOpStack (ops ++ lp :: rest) exprStack = .error .mismatchedLeftParen := by
  intro ops
  induction ops with
  | nil =>
    intro lp rest ex _ hlp _
    rw [List.nil_append, drainOpStack, if_pos hlp]
  | cons t more ih =>
    intro lp rest ex hall hlp hsum
    have ht := hall t (List.mem_cons_self _ _)
    have harity : t.arity + aritySum more ≤ ex.length := by
      rw [aritySum] at hsum; omega
    rw [List.cons_append, drainOpStack]
    rw [if_neg (by rcases ht with h | h <;> simp [h])]
    rw [popOperator_ok t (more ++ lp :: rest) ex ht (by omega)]
    exact ih lp rest _ (fun u hu => hall u (List.mem_cons_of_mem _ hu)) hlp
      (by simp [List.length_drop]; omega)


/-- The two symbol-length groups of the built dictionary. -/
def opMapTwo : List (List Char × Operator) := [(['*', '*'], opPow)]

def opMapOne : List (List Char × Operator) :=
  [(['+'], opAdd), (['-'], opSub), (['*'], opMul), (['/'], opDiv),
   (['%'], opMod), (['~'], opNeg)]

/-- The dictionary built by the seven registrations: the length-2 entry
precedes the length-1 entry (descending sort), so `Operator.parse` tests the
longer symbols first. -/
theorem dictionary_eq :
    Operator.dictionary = [⟨2, opMapTwo⟩, ⟨1, opMapOne⟩] := rfl

/-- `Operator.parse` unfolded over the concrete dictionary: first the
two-character window against the length-2 map, then the one-character window
against the length-1 map, each guarded by the remaining-length check. -/
theorem parse_eq (expr : List Char) (i : Nat) :
    Operator.parse expr i =
      if expr.length < i + 2 then
        (if expr.length < i + 1 then none
         else
           match lookupMap (jsSubstring expr i (i + 1)) opMapOne with
           | some op => some op
           | none => none)
      else
        match lookupMap (jsSubstring expr i (i + 2)) opMapTwo with
        | some op => some op
        | none =>
          if expr.length < i + 1 then none
          else
            match lookupMap (jsSubstring expr i (i + 1)) opMapOne with
            | some op => some op
            | none => none := rfl

theorem operators_symbol_le_two : ∀ op2 ∈ Operator.operators, op2.symbol.length ≤ 2 := by
  decide

theorem operators_cases :
    ∀ op2 ∈ Operator.operators,
      op2 = opPow ∨ ((op2.symbol, op2) ∈ opMapOne ∧ op2.symbol.length = 1) := by
  decide

/-! Claim theorems. -/

/-- Claim C1.  The code bug at the failing input: `"2+3*4"` does evaluate to
`14`, but the parse of `"(2+3)*4"` does not complete normally — after the
LeftParen matching the RightParen is discarded the pending-symbol stack is
empty, and `peek(opStack).type` reads a property of `undefined`, raising a
TypeError instead of returning `20`.  The third conjunct isolates the crash:
processing a RightParen against a pending stack holding exactly one
LeftParen. -/
theorem c1_precedence_paren_crash :
    evaluateString "2+3*4" = .ok 14 ∧
    parseString "(2+3)*4" = .error (.parse .typeErrorUndefined) ∧
    processRightParen [Token.leftParen] [ExprNode.mk (Token.number 5) none] =
      .error .typeErrorUndefined :=
  ⟨rfl, rfl, rfl⟩

/-- Claim C2.  The code bug: on `"1,2"` the separator handler calls
`peek` on the empty pending stack and crashes with a TypeError — there is no
MisplacedSeparator failure — and while popping down to a LeftParen it pushes
`new ExprNode(opStack.pop())`, a node with `undefined` children, instead of
reducing the popped Operator/Function with its arity's worth of operands:
from the stack `[+ , (]` with operands `1, 2` it produces a childless `+`
node and leaves both operands in place. -/
theorem c2_separator_behavior :
    parseString "1,2" = .error (.parse .typeErrorUndefined) ∧
    processSeparator ([] : List Token) [ExprNode.mk (Token.number 1) none] =
      .error .typeErrorUndefined ∧
    processSeparator [Token.operator opAdd, Token.leftParen]
        [ExprNode.mk (Token.number 2) none, ExprNode.mk (Token.number 1) none] =
      .ok ([Token.leftParen],
        [ExprNode.mk (Token.operator opAdd) none, ExprNode.mk (Token.number 2) none,
          ExprNode.mk (Token.number 1) none]) :=
  ⟨rfl, rfl, rfl⟩

/-- Claim C3, counterexample.  The claim asserts `parse` fails with an
EmptyExpression error on the empty token sequence and on any sequence
leaving more than one output node; the code has no such check: `create []`
returns `undefined` (`ok none`) without error, and `"1 2"` — which leaves
the two nodes `1` and `2` on the output stack — returns the node for `2`. -/
theorem c3_counterexample :
    AST.create [] = .ok none ∧
    parseString "1 2" = .ok (some (ExprNode.mk (Token.number 2) none)) :=
  ⟨rfl, rfl⟩

/-- Claim C3 as amended.  `AST.create` ends with `return exprStack.pop()`
unconditionally: whatever output stack the token processing and the final
drain leave, the result is `ok` of its top element — `undefined` (`none`)
for the empty token sequence, and the most recently pushed node when several
remain, with no EmptyExpression failure in either case. -/
theorem c3_amended :
    AST.create [] = .ok none ∧
    parseString "" = .ok none ∧
    parseString "1 2" = .ok (some (ExprNode.mk (Token.number 2) none)) ∧
    (∀ (tokens : List Token) (st : List Token × List ExprNode)
        (exprStack2 : List ExprNode),
      List.foldlM processToken (([] : List Token), ([] : List ExprNode)) tokens = .ok st →
      drainOpStack st.1 st.2 = .ok exprStack2 →
      AST.create tokens = .ok exprStack2.head?) := by
  refine ⟨rfl, rfl, rfl, ?_⟩
  intro tokens st ex2 h1 h2
  obtain ⟨opStack, exprStack⟩ := st
  simp only at h2
  rw [AST.create, h1]
  simp only [h2]

/-- Witness for the amended claim C3: its final conjunct applied to the
token sequence of `"1 2"`, whose processing leaves two output nodes. -/
theorem c3_amended_witness :
    AST.create [Token.number 1, Token.number 2] =
      .ok (List.head? [ExprNode.mk (Token.number 2) none,
        ExprNode.mk (Token.number 1) none]) :=
  c3_amended.2.2.2 [Token.number 1, Token.number 2]
    ([], [ExprNode.mk (Token.number 2) none, ExprNode.mk (Token.number 1) none])
    [ExprNode.mk (Token.number 2) none, ExprNode.mk (Token.number 1) none] rfl rfl

/-- Claim C4.  The code bug: the parse of `"max(1+2,3)"` succeeds, yet the
returned AST violates the child-count-equals-arity invariant — its first
child is a `+` Operator node with `undefined` children (the argument
separator pushed the popped token without reducing it) instead of a binary
node, and the operands `1` and `2` were abandoned on the output stack. -/
theorem c4_arity_invariant_violated :
    parseString "max(1+2,3)" =
      .ok (some (ExprNode.mk (Token.function .fmax)
        (some [ExprNode.mk (Token.operator opAdd) none,
          ExprNode.mk (Token.number 3) none]))) ∧
    arityOk (ExprNode.mk (Token.function .fmax)
        (some [ExprNode.mk (Token.operator opAdd) none,
          ExprNode.mk (Token.number 3) none])) = false :=
  ⟨rfl, rfl⟩

/-- Claim C5.  The code bug: the TypeScript source and the compiled artifact
disagree.  The source's `readFunction` tests `expr.substr(index, i)` (the
`i` characters from `index`) where the artifact tests
`expr.substring(index, i)` (the characters from `index` up to `i`), so on
`"1+max(3,5)"` — where the identifier starts at index 2 — the source rejects
the lexeme and `tokenize` fails with the unrecognized-token error at `'m'`,
while the artifact recognizes `max` and tokenizes the whole input. -/
theorem c5_source_artifact_divergence :
    Tokenizer.tokenize (str "1+max(3,5)") = .error (.unexpectedToken 'm') ∧
    tokenizeJs (str "1+max(3,5)") =
      .ok [Token.number 1, Token.operator opAdd, Token.function .fmax,
        Token.leftParen, Token.number 3, Token.argumentSeparator,
        Token.number 5, Token.rightParen] ∧
    readFunction (str "1+max(3,5)") 2 = none ∧
    readFunctionJs (str "1+max(3,5)") 2 = some ⟨Token.function .fmax, 3⟩ :=
  ⟨rfl, rfl, rfl, rfl⟩

/-- Claim C6.  The two concrete examples hold (`"max(3,5)"` evaluates to `5`
and `"floor(2.7)"` to `2` — both identifiers start at index 0), but the
recognizer does not emit a Function token whenever the consumed identifier
is registered: at position 2 of `"1+max(3,5)"` the consumed identifier is
`"max"`, which is registered, yet `readFunction` returns no match because it
looks up `expr.substr(index, i)` — `"max(3"` — instead of the identifier. -/
theorem c6_function_recognizer :
    evaluateString "max(3,5)" = .ok 5 ∧
    evaluateString "floor(2.7)" = .ok 2 ∧
    jsSubstring (str "1+max(3,5)") 2 (funScan (str "1+max(3,5)") 3) = str "max" ∧
    lookupFunction (str "max") = some .fmax ∧
    readFunction (str "1+max(3,5)") 2 = none :=
  ⟨rfl, rfl, rfl, rfl, rfl⟩

/-- Claim C7.  Longest-match operator lookup: whenever `Operator.parse`
returns an operator, that operator is registered, its symbol occurs at the
given position, and no registered operator with a longer symbol matches
there; whenever it returns no match, no registered symbol matches at all.
Consequently `"2**3"` tokenizes to `[2, **, 3]` and never `[2, *, *, 3]`. -/
theorem c7_longest_match :
    (∀ (expr : List Char) (i : Nat) (op : Operator),
      Operator.parse expr i = some op →
        op ∈ Operator.operators ∧ matchesAt expr i op.symbol ∧
          ∀ op2 ∈ Operator.operators, matchesAt expr i op2.symbol →
            op2.symbol.length ≤ op.symbol.length) ∧
    (∀ (expr : List Char) (i : Nat),
      Operator.parse expr i = none →
        ∀ op2 ∈ Operator.operators, ¬ matchesAt expr i op2.symbol) ∧
    Tokenizer.tokenize (str "2**3") =
      .ok [Token.number 2, Token.operator opPow, Token.number 3] := by
  refine ⟨?_, ?_, rfl⟩
  · intro expr i op h
    rw [parse_eq] at h
    by_cases h2 : expr.length < i + 2
    · rw [if_pos h2] at h
      by_cases h1 : expr.length < i + 1
      · rw [if_pos h1] at h; cases h
      · rw [if_neg h1] at h
        cases heq : lookupMap (jsSubstring expr i (i + 1)) opMapOne with
        | none => rw [heq] at h; cases h
        | some o =>
          rw [heq] at h
          cases h
          obtain ⟨pr, hpr, hs, hop⟩ := lookupMap_cases _ _ _ heq
          simp only [opMapOne, List.mem_cons, List.not_mem_nil, or_false] at hpr
          rcases hpr with rfl | rfl | rfl | rfl | rfl | rfl <;>
            simp only at hs hop <;> subst hop <;>
            refine ⟨by decide, ⟨show i + 1 ≤ expr.length by omega, hs.symm⟩, ?_⟩ <;>
            · intro op2 hop2 hmatch
              rcases operators_cases op2 hop2 with rfl | ⟨hmem, hlen1⟩
              · have hx : i + 2 ≤ expr.length := hmatch.1
                omega
              · exact le_of_eq hlen1
    · rw [if_neg h2] at h
      cases heq : lookupMap (jsSubstring expr i (i + 2)) opMapTwo with
      | some o =>
        rw [heq] at h
        cases h
        obtain ⟨pr, hpr, hs, hop⟩ := lookupMap_cases _ _ _ heq
        simp only [opMapTwo, List.mem_cons, List.not_mem_nil, or_false] at hpr
        subst hpr
        simp only at hs hop
        subst hop
        refine ⟨by decide, ⟨show i + 2 ≤ expr.length by omega, hs.symm⟩, ?_⟩
        intro op2 hop2 _
        exact operators_symbol_le_two op2 hop2
      | none =>
        rw [heq] at h
        rw [if_neg (by omega)] at h
        cases heq1 : lookupMap (jsSubstring expr i (i + 1)) opMapOne with
        | none => rw [heq1] at h; cases h
        | some o =>
          rw [heq1] at h
          cases h
          obtain ⟨pr, hpr, hs, hop⟩ := lookupMap_cases _ _ _ heq1
          simp only [opMapOne, List.mem_cons, List.not_mem_nil, or_false] at hpr
          rcases hpr with rfl | rfl | rfl | rfl | rfl | rfl <;>
            simp only at hs hop <;> subst hop <;>
            refine ⟨by decide, ⟨show i + 1 ≤ expr.length by omega, hs.symm⟩, ?_⟩ <;>
            · intro op2 hop2 hmatch
              rcases operators_cases op2 hop2 with rfl | ⟨hmem, hlen1⟩
              · have hne := lookupMap_none _ _ heq (['*', '*'], opPow)
                  (List.mem_cons_self _ _)
                exact absurd hmatch.2 (fun hx => hne hx.symm)
              · exact le_of_eq hlen1
  · intro expr i h op2 hop2 hmatch
    have hpos : 1 ≤ op2.symbol.length := by
      rcases operators_cases op2 hop2 with rfl | ⟨_, hlen1⟩
      · exact (by decide : 1 ≤ opPow.symbol.length)
      · omega
    rw [parse_eq] at h
    by_cases h2 : expr.length < i + 2
    · rw [if_pos h2] at h
      by_cases h1 : expr.length < i + 1
      · rw [if_pos h1] at h
        have := hmatch.1
        omega
      · rw [if_neg h1] at h
        cases heq : lookupMap (jsSubstring expr i (i + 1)) opMapOne with
        | some o => rw [heq] at h; cases h
        | none =>
          rcases operators_cases op2 hop2 with rfl | ⟨hmem, hlen1⟩
          · have hx : i + 2 ≤ expr.length := hmatch.1
            omega
          · have hne := lookupMap_none _ _ heq (op2.symbol, op2) hmem
            have hx := hmatch.2
            rw [hlen1] at hx
            exact hne hx.symm
    · rw [if_neg h2] at h
      cases heq : lookupMap (jsSubstring expr i (i + 2)) opMapTwo with
      | some o => rw [heq] at h; cases h
      | none =>
        rw [heq] at h
        rw [if_neg (by omega)] at h
        cases heq1 : lookupMap (jsSubstring expr i (i + 1)) opMapOne with
        | some o => rw [heq1] at h; cases h
        | none =>
          rcases operators_cases op2 hop2 with rfl | ⟨hmem, hlen1⟩
          · have hne := lookupMap_none _ _ heq (['*', '*'], opPow)
              (List.mem_cons_self _ _)
            exact absurd hmatch.2 (fun hx => hne hx.symm)
          · have hne := lookupMap_none _ _ heq1 (op2.symbol, op2) hmem
            have hx := hmatch.2
            rw [hlen1] at hx
            exact hne hx.symm

/-- Witness for claim C7: its first conjunct applied to `"2**3"` at
position 1, where `Operator.parse` returns `**`, together with the
maximality conclusion instantiated on the matching shorter operator `*`. -/
theorem c7_longest_match_witness :
    opPow ∈ Operator.operators ∧ matchesAt (str "2**3") 1 opPow.symbol ∧
      opMul.symbol.length ≤ opPow.symbol.length :=
  ⟨(c7_longest_match.1 (str "2**3") 1 opPow rfl).1,
    (c7_longest_match.1 (str "2**3") 1 opPow rfl).2.1,
    (c7_longest_match.1 (str "2**3") 1 opPow rfl).2.2 opMul (by decide)
      ⟨by decide, by decide⟩⟩

/-- Claim C8.  Associativity via the shunting-yard pop rule: left-associative
subtraction groups `"2-3-4"` as `(2-3)-4 = -5`, and right-associative
exponentiation groups `"2**3**2"` as `2**(3**2) = 512`. -/
theorem c8_associativity :
    evaluateString "2-3-4" = .ok (-5) ∧ evaluateString "2**3**2" = .ok 512 :=
  ⟨rfl, rfl⟩

/-- Claim C9, counterexample.  On `"(+"` the token processing ends with the
LeftParen still on the pending-symbol stack, yet `parse` fails with the
insufficient-operands error (`"Not enough expressions on the stack."`) —
raised while reducing the `+` above the LeftParen — not with
MismatchedLeftParen as the claim requires whenever a LeftParen remains. -/
theorem c9_counterexample :
    Tokenizer.tokenize (str "(+") = .ok [Token.leftParen, Token.operator opAdd] ∧
    List.foldlM processToken (([] : List Token), ([] : List ExprNode))
        [Token.leftParen, Token.operator opAdd] =
      .ok ([Token.operator opAdd, Token.leftParen], []) ∧
    parseString "(+" = .error (.parse .notEnoughExpressions) ∧
    ParseErr.notEnoughExpressions ≠ ParseErr.mismatchedLeftParen :=
  ⟨rfl, rfl, rfl, by decide⟩

/-- Claim C9 as amended.  A RightParen processed against a pending stack of
Operator/Function tokens with no LeftParen (and enough operands for every
reduction, so that the stack genuinely runs out) fails with
MismatchedRightParen; the end-of-input drain fails with MismatchedLeftParen
whenever a LeftParen remains and the reductions of the Operator/Function
tokens above it all find enough operands (otherwise an earlier
insufficient-operands failure wins, as on `"(+"`).  Concretely, `"1+2)"`
fails with MismatchedRightParen and `"(1+2"` with MismatchedLeftParen. -/
theorem c9_amended :
    (∀ (opStack : List Token) (exprStack : List ExprNode),
      (∀ t ∈ opStack, t.type = TokenType.Operator ∨ t.type = TokenType.Function) →
      aritySum opStack ≤ exprStack.length →
      processRightParen opStack exprStack = .error .mismatchedRightParen) ∧
    (∀ (ops : List Token) (lp : Token) (rest : List Token) (exprStack : List ExprNode),
      (∀ t ∈ ops, t.type = TokenType.Operator ∨ t.type = TokenType.Function) →
      lp.type = TokenType.LeftParenthesis →
      aritySum ops ≤ exprStack.length →
      drainOpStack (ops ++ lp :: rest) exprStack = .error .mismatchedLeftParen) ∧
    parseString "1+2)" = .error (.parse .mismatchedRightParen) ∧
    parseString "(1+2" = .error (.parse .mismatchedLeftParen) :=
  ⟨processRightParen_no_lparen, drainOpStack_lparen, rfl, rfl⟩

/-- Witness for the amended claim C9: both universal conjuncts instantiated
on the pending stack `[+]` (and `[+, (]` for the drain) over the operand
stack `[1, 2]`. -/
theorem c9_amended_witness :
    processRightParen [Token.operator opAdd]
        [ExprNode.mk (Token.number 1) none, ExprNode.mk (Token.number 2) none] =
      .error .mismatchedRightParen ∧
    drainOpStack ([Token.operator opAdd] ++ Token.leftParen :: [])
        [ExprNode.mk (Token.number 1) none, ExprNode.mk (Token.number 2) none] =
      .error .mismatchedLeftParen :=
  ⟨c9_amended.1 [Token.operator opAdd]
      [ExprNode.mk (Token.number 1) none, ExprNode.mk (Token.number 2) none]
      (by decide) (by decide),
    c9_amended.2.1 [Token.operator opAdd] Token.leftParen []
      [ExprNode.mk (Token.number 1) none, ExprNode.mk (Token.number 2) none]
      (by decide) (by decide) (by decide)⟩

/-- Claim C10.  Termination of the scanner: every successful recognizer
reports `charsRead ≥ 1` (numbers, operators — whose registered symbols are
nonempty —, punctuation and function names alike), so each iteration of the
`tokenize` loop advances the index; consequently the loop, modelled with
`length + 1` fuel, never exhausts its fuel on any input. -/
theorem c10_termination :
    (∀ (expr : List Char) (i : Nat) (info : ParseInfo),
      readNumber expr i = some info → 1 ≤ info.charsRead) ∧
    (∀ (expr : List Char) (i : Nat) (op : Operator),
      Operator.parse expr i = some op → 1 ≤ op.symbol.length) ∧
    (∀ (expr : List Char) (i : Nat) (info : ParseInfo),
      readFunction expr i = some info → 1 ≤ info.charsRead) ∧
    (∀ (expr : List Char) (i : Nat) (info : ParseInfo),
      readToken expr i = some info → 1 ≤ info.charsRead) ∧
    (∀ expr : List Char, Tokenizer.tokenize expr ≠ .error .outOfFuel) :=
  ⟨readNumber_charsRead, parse_symbol_pos, readFunction_charsRead,
    readToken_charsRead, fun expr =>
      tokenizeFuel_ne_outOfFuel (expr.length + 1) expr 0 (by omega)⟩

/-- Witness for claim C10: the recognizer facts instantiated on concrete
reads of `"2**3"`, and fuel sufficiency on that same input. -/
theorem c10_termination_witness :
    1 ≤ (ParseInfo.mk (Token.number 2) 1).charsRead ∧
    1 ≤ opPow.symbol.length ∧
    Tokenizer.tokenize (str "2**3") ≠ .error .outOfFuel :=
  ⟨c10_termination.2.2.2.1 (str "2**3") 0 (ParseInfo.mk (Token.number 2) 1) rfl,
    c10_termination.2.1 (str "2**3") 1 opPow rfl,
    c10_termination.2.2.2.2 (str "2**3")⟩

end Ast
